import Mathlib

/-!
Shallow embedding of the status-reporting script `model_status.py`: the
field-guessing heuristics (`guessFields`), the jobs-section classification
loop, the catalog normalization and deduplication, the final status
reconciliation, and the fetch error-handling structure. Python runtime
errors (AttributeError / TypeError) are modelled with `Except String`;
Python truthiness, `or`-chains and `in`-tests are modelled explicitly.
-/

namespace ModelStatus

mutual
/-- JSON values as delivered by the cluster API. Numbers are modelled as
integers (no claim involves fractional values). Arrays and objects carry
their own list types (`JsonElems`, `JsonFields`) so that decidable
equality can be derived; objects are association lists looked up by first
match, mirroring Python dict access on the duplicate-free objects the API
produces. -/
inductive Json where
  | null : Json
  | bool : Bool → Json
  | num : Int → Json
  | str : String → Json
  | arr : JsonElems → Json
  | obj : JsonFields → Json

inductive JsonElems where
  | nil : JsonElems
  | cons : Json → JsonElems → JsonElems

inductive JsonFields where
  | nil : JsonFields
  | cons : String → Json → JsonFields → JsonFields
end

deriving instance DecidableEq for Json, JsonElems, JsonFields
deriving instance Repr for Json, JsonElems, JsonFields

def JsonElems.toList : JsonElems → List Json
  | .nil => []
  | .cons x tl => x :: tl.toList

def JsonElems.ofList : List Json → JsonElems
  | [] => .nil
  | x :: tl => .cons x (JsonElems.ofList tl)

def JsonFields.toList : JsonFields → List (String × Json)
  | .nil => []
  | .cons k v tl => (k, v) :: tl.toList

def JsonFields.ofList : List (String × Json) → JsonFields
  | [] => .nil
  | (k, v) :: tl => .cons k v (JsonFields.ofList tl)

/-- Convenience constructor for array literals. -/
def jarr (xs : List Json) : Json := .arr (JsonElems.ofList xs)

/-- Convenience constructor for object literals. -/
def jobj (kvs : List (String × Json)) : Json := .obj (JsonFields.ofList kvs)

/-! ## Python string primitives (defined over `List Char` so that the
kernel can evaluate them on concrete inputs) -/

/-- `s.split(sep)` for a one-character separator: pieces between
occurrences, empty pieces preserved, `[""]` for the empty string. -/
def splitChar (c : Char) : List Char → List (List Char)
  | [] => [[]]
  | x :: xs =>
    let r := splitChar c xs
    if x = c then [] :: r
    else
      match r with
      | h :: t => (x :: h) :: t
      | [] => [[x]]

/-- `name.split(',')`. -/
def pySplitComma (s : String) : List String :=
  (splitChar ',' s.data).map String.mk

/-- `s.strip()`: drop leading and trailing whitespace. -/
def pyTrim (s : String) : String :=
  String.mk (((s.data.dropWhile Char.isWhitespace).reverse.dropWhile Char.isWhitespace).reverse)

/-- `s.lower()`. -/
def pyLowerStr (s : String) : String := String.mk (s.data.map Char.toLower)

/-- `needle` occurs as a prefix of `hay`. -/
def isPref : List Char → List Char → Bool
  | [], _ => true
  | _ :: _, [] => false
  | a :: as, b :: bs => a = b && isPref as bs

/-- `needle in hay` for strings: substring occurrence. -/
def hasSub (needle : List Char) : List Char → Bool
  | [] => needle.isEmpty
  | hay@(_ :: tl) => isPref needle hay || hasSub needle tl

/-- `needle in s` for strings. -/
def strHasSub (s needle : String) : Bool := hasSub needle.data s.data

/-- `s.rstrip('/')`: drop all trailing slashes. -/
def rstripSlash (s : String) : String :=
  String.mk (s.data.reverse.dropWhile (fun c => c = '/')).reverse

/-! ## Python value semantics -/

/-- Python truthiness: `None`, `False`, `0`, `""`, `[]` and an empty dict
are falsy; everything else is truthy. -/
def pyTruthy : Json → Bool
  | .null => false
  | .bool b => b
  | .num n => n != 0
  | .str s => s != ""
  | .arr .nil => false
  | .arr _ => true
  | .obj .nil => false
  | .obj _ => true

/-- Python `a or b`: `a` when truthy, else `b`. -/
def pyOr (a b : Json) : Json := if pyTruthy a then a else b

/-- `k in d` for a dict given as its field list. -/
def hasKey (kvs : List (String × Json)) (k : String) : Bool :=
  (kvs.lookup k).isSome

/-- `d.get(k)`: the value when the key is present, `None` otherwise. -/
def dget (kvs : List (String × Json)) (k : String) : Json :=
  (kvs.lookup k).getD .null

/-- `d.get(k, default)`. -/
def dgetD (kvs : List (String × Json)) (k : String) (d : Json) : Json :=
  (kvs.lookup k).getD d

mutual
/-- Python `repr`, as used when a container is formatted into an f-string.
String escaping is not modelled (no input in this development exercises
it). -/
def pyRepr : Json → String
  | .null => "None"
  | .bool true => "True"
  | .bool false => "False"
  | .num n => toString n
  | .str s => "\x27" ++ s ++ "\x27"
  | .arr es => "[" ++ pyReprElems es ++ "]"
  | .obj fs => "\x7b" ++ pyReprFields fs ++ "\x7d"

def pyReprElems : JsonElems → String
  | .nil => ""
  | .cons x .nil => pyRepr x
  | .cons x tl => pyRepr x ++ ", " ++ pyReprElems tl

def pyReprFields : JsonFields → String
  | .nil => ""
  | .cons k v .nil => "\x27" ++ k ++ "\x27: " ++ pyRepr v
  | .cons k v tl => "\x27" ++ k ++ "\x27: " ++ pyRepr v ++ ", " ++ pyReprFields tl
end

/-- Python `str(x)` as interpolated by an f-string: a string formats as
itself, any other value as its repr. -/
def pyStr : Json → String
  | .str s => s
  | j => pyRepr j

/-- `needle in container` for the shapes Python accepts: substring test on
strings, element test on lists, key test on dicts; `TypeError` otherwise. -/
def pyContains (needle : String) : Json → Except String Bool
  | .str s => .ok (strHasSub s needle)
  | .arr es => .ok (es.toList.contains (.str needle))
  | .obj fs => .ok (hasKey fs.toList needle)
  | _ => .error "TypeError: argument not iterable"

/-- `container[k]` for a string key: dict lookup, `TypeError` on anything
else. The script only indexes a dict after a membership test, so
`KeyError` cannot be reached on the paths modelled here. -/
def pyIndex (j : Json) (k : String) : Except String Json :=
  match j with
  | .obj fs =>
      match fs.toList.lookup k with
      | some v => .ok v
      | none => .error "KeyError"
  | _ => .error "TypeError: not subscriptable"

/-- `x.get(k, default)` where `x` may fail to be a dict. -/
def pyGetD (j : Json) (k : String) (d : Json) : Except String Json :=
  match j with
  | .obj fs => .ok (dgetD fs.toList k d)
  | _ => .error "AttributeError: no attribute get"

/-- `.items()` of a value that must be a dict. -/
def pyItems (j : Json) : Except String (List (String × Json)) :=
  match j with
  | .obj fs => .ok fs.toList
  | _ => .error "AttributeError: no attribute items"

/-- `for x in v`: lists iterate their elements, strings their characters,
dicts their keys; other values raise `TypeError`. -/
def iterValue : Json → Except String (List Json)
  | .arr es => .ok es.toList
  | .str s => .ok (s.data.map (fun c => .str (String.mk [c])))
  | .obj fs => .ok (fs.toList.map (fun kv => .str kv.1))
  | _ => .error "TypeError: object not iterable"

/-- Values Python can hash (place in a set or use as a dict key). -/
def pyHashable : Json → Bool
  | .arr _ => false
  | .obj _ => false
  | _ => true

/-- `set(xs)`, used only through its size and membership: deduplicate, or
raise `TypeError` on an unhashable element. -/
def pySet (xs : List Json) : Except String (List Json) :=
  if xs.all pyHashable then .ok xs.dedup else .error "TypeError: unhashable type"

/-! ## FieldGuesser (`guessFields`, model_status.py lines 316-351) -/

/-- `item.get("model") or item.get("name") or item.get("endpoint") or
item.get("id")`. -/
def directName (kvs : List (String × Json)) : Json :=
  pyOr (pyOr (pyOr (dget kvs "model") (dget kvs "name")) (dget kvs "endpoint")) (dget kvs "id")

/-- `item.get("status") or item.get("state") or item.get("endpoint_status")
or item.get("lifecycle")`. -/
def directStatus (kvs : List (String × Json)) : Json :=
  pyOr (pyOr (pyOr (dget kvs "status") (dget kvs "state")) (dget kvs "endpoint_status"))
    (dget kvs "lifecycle")

/-- The guard `if not name and "Models" in item` that enables the
job-shape fallback. -/
def modelsFallback (kvs : List (String × Json)) : Bool :=
  !(pyTruthy (directName kvs)) && hasKey kvs "Models"

/-- Name resolution inside the `Models` fallback branch: a singleton list
yields its element, a longer list the summarized `"<first> (+<n-1>
others)"` string, a plain string itself, and otherwise
`"<Framework> on <Cluster>"` when both are truthy, else null. -/
def nameFromModels (kvs : List (String × Json)) : Json :=
  let fw := dgetD kvs "Framework" (.str "")
  let cl := dgetD kvs "Cluster" (.str "")
  let fallback : Json :=
    if pyTruthy fw && pyTruthy cl then .str (pyStr fw ++ " on " ++ pyStr cl) else .null
  match dget kvs "Models" with
  | .arr es =>
      match es.toList with
      | [] => fallback
      | m0 :: rest =>
          if rest.isEmpty then m0
          else .str (pyStr m0 ++ " (+" ++ toString rest.length ++ " others)")
  | .str s => .str s
  | _ => fallback

/-- The name `guessFields` resolves for a record. -/
def guessedName (kvs : List (String × Json)) : Json :=
  if modelsFallback kvs then nameFromModels kvs else directName kvs

/-- The raw (pre-`strip`) status `guessFields` resolves: direct status
keys first; inside the `Models` fallback, when no direct status was
truthy, `Model Status` then `Job State`, overridden to `"Starting"`
whenever an `Estimated Start Time` key is present. -/
def rawStatus (kvs : List (String × Json)) : Json :=
  let s0 := directStatus kvs
  if modelsFallback kvs && !(pyTruthy s0) then
    if hasKey kvs "Estimated Start Time" then .str "Starting"
    else pyOr (dget kvs "Model Status") (dget kvs "Job State")
  else s0

/-- `(status or "").strip()`: a falsy status becomes `""`; a truthy string
is trimmed; a truthy non-string raises `AttributeError`. -/
def finishStatus (s : Json) : Except String String :=
  if pyTruthy s then
    match s with
    | .str t => .ok (pyTrim t)
    | _ => .error "AttributeError: no attribute strip"
  else .ok ""

/-- `guessFields(item)`: the resolved `(name, status)` pair, or the Python
runtime error the source would raise (`.get` on a non-dict, `.strip` on a
truthy non-string status). -/
def guessFields (item : Json) : Except String (Json × String) :=
  match item with
  | .obj fs => do
      let s ← finishStatus (rawStatus fs.toList)
      pure (guessedName fs.toList, s)
  | _ => .error "AttributeError: no attribute get"

/-! ## JobClassifier (model_status.py lines 401-486) -/

/-- The statuses the loop at line 464 treats as classifiable. -/
def classifiedStatuses : List String := ["live", "running", "loaded", "starting", "queued"]

/-- The classification buckets `activeModels` / `startingModels` /
`queuedModels`. -/
structure Buckets where
  active : List Json
  starting : List Json
  queued : List Json
  deriving DecidableEq, Repr

/-- Append names to the bucket selected by the record status:
`starting` / `queued` by exact lowercased match, anything else active. -/
def bucketAdd (b : Buckets) (status : String) (names : List Json) : Buckets :=
  if pyLowerStr status = "starting" then { b with starting := b.starting ++ names }
  else if pyLowerStr status = "queued" then { b with queued := b.queued ++ names }
  else { b with active := b.active ++ names }

/-- `[m.strip() for m in name.split(',')]`, failing when `name` is not a
string (Python lists have no `split`). -/
def splitTrimName (j : Json) : Except String (List String) :=
  match j with
  | .str s => .ok ((pySplitComma s).map pyTrim)
  | _ => .error "AttributeError: no attribute split"

/-- One iteration of the classification loop (lines 455-486): guess the
fields, keep only classifiable statuses and usable names, comma-split the
name if needed, and extend the bucket selected by the status. -/
def classifyStep (b : Buckets) (it : Json) : Except String Buckets := do
  let nameStatus ← guessFields it
  let name := nameStatus.1
  let status := nameStatus.2
  if classifiedStatuses.contains (pyLowerStr status) then
    if pyTruthy name && name != .str "Unknown Job" then do
      let hasComma ← pyContains "," name
      if hasComma then do
        let pieces ← splitTrimName name
        pure (bucketAdd b status (pieces.map Json.str))
      else
        pure (bucketAdd b status [name])
    else pure b
  else pure b

/-- The four processed sections, in the order the script visits them. -/
def sectionKeys : List String := ["running", "queued", "others", "private-batch-running"]

/-- Job records collected from the processed sections (a section
contributes only when present and a list). -/
def sectionItems (kvs : List (String × Json)) : List Json :=
  (sectionKeys.map (fun s =>
    match kvs.lookup s with
    | some (.arr es) => es.toList
    | _ => [])).flatten

/-- Job-record selection (lines 411-452): a list body is used directly; a
dict body contributes its four processed sections, falling back to its
`items` value only when those produced nothing; any other body yields no
records. -/
def jobItemsOf (jobs : Json) : Except String (List Json) :=
  match jobs with
  | .arr es => .ok es.toList
  | .obj fs =>
      let kvs := fs.toList
      let ji := sectionItems kvs
      if ji.isEmpty && hasKey kvs "items" then iterValue (dget kvs "items")
      else .ok ji
  | _ => .ok []

/-- The whole classification pass: job-record selection followed by the
classification loop. -/
def classifyJobs (jobs : Json) : Except String Buckets := do
  let items ← jobItemsOf jobs
  items.foldlM classifyStep ⟨[], [], []⟩

/-- `totalActive = len(set(activeModels)) + len(set(startingModels)) +
len(set(queuedModels))` (line 524). -/
def totalActiveOf (jobs : Json) : Except String Nat := do
  let b ← classifyJobs jobs
  let a ← pySet b.active
  let s ← pySet b.starting
  let q ← pySet b.queued
  pure (a.length + s.length + q.length)

/-! ## StatusReconciler (final listing, model_status.py lines 530-544) -/

/-- The four displayed lifecycle states of a configured model. -/
inductive FinalStatus where
  | active : FinalStatus
  | starting : FinalStatus
  | queued : FinalStatus
  | stopped : FinalStatus
  deriving DecidableEq, Repr

/-- The `if / elif / elif / else` chain of the final listing: membership is
tested in the fixed order active, starting, queued, defaulting to
Stopped. -/
def resolveStatus (act sta que : List Json) (n : Json) : FinalStatus :=
  if n ∈ act then .active
  else if n ∈ sta then .starting
  else if n ∈ que then .queued
  else .stopped

/-! ## CatalogNormalizer and dedup (model_status.py lines 160-242, 372-377) -/

/-- One record of the models catalog as built by `getAvailableModels`. -/
structure ModelRecord where
  name : Json
  cluster : String
  framework : String
  chat_url : Option String
  source : String
  deriving DecidableEq, Repr

/-- One step of the dedup loop: keep the record only when no earlier
record had its name. -/
def dupStep (acc : List ModelRecord) (m : ModelRecord) : List ModelRecord :=
  if acc.any (fun r => decide (r.name = m.name)) then acc else acc ++ [m]

/-- First-seen-wins dedup by name (lines 372-377), pure form. -/
def uniqueModels (ms : List ModelRecord) : List ModelRecord :=
  ms.foldl dupStep []

/-- One step of the dedup loop as executed: an unhashable name raises
`TypeError` at the dict-membership test. -/
def uniqueStepE (acc : List ModelRecord) (m : ModelRecord) : Except String (List ModelRecord) :=
  if pyHashable m.name then .ok (dupStep acc m)
  else .error "TypeError: unhashable type"

/-- First-seen-wins dedup by name as executed (lines 372-377). -/
def uniqueModelsE (ms : List ModelRecord) : Except String (List ModelRecord) :=
  ms.foldlM uniqueStepE []

/-- `endpointItem.get(k1, endpointItem.get(k2, "Unknown"))`: a present key
wins even when its value is null. -/
def nameFromGetChain (kvs : List (String × Json)) (k1 k2 : String) : Json :=
  match kvs.lookup k1 with
  | some v => v
  | none =>
      match kvs.lookup k2 with
      | some v => v
      | none => .str "Unknown"

/-- The fixed API host prepended to every chat URL. -/
def apiBase : String := "https://inference-api.alcf.anl.gov"

/-- The `clusters` shape: records for one `(clusterName, clusterInfo)`
pair (lines 178-193). -/
def clusterModels (cn : String) (cInfo : Json) : Except String (List ModelRecord) := do
  let hasF ← pyContains "frameworks" cInfo
  if hasF then do
    let fw ← pyIndex cInfo "frameworks"
    let fkvs ← pyItems fw
    fkvs.foldlM
      (fun acc kv => do
        let hasM ← pyContains "models" kv.2
        let mlist ←
          if hasM then do
            let mv ← pyIndex kv.2 "models"
            pure (match mv with | .arr es => some es.toList | _ => none)
          else pure none
        match mlist with
        | some models =>
            models.foldlM
              (fun acc2 model => do
                let baseUrl ← pyGetD cInfo "base_url" (.str "")
                let eps ← pyGetD kv.2 "endpoints" (jobj [])
                let chatEp ← pyGetD eps "chat" (.str "")
                let chatUrl :=
                  if pyTruthy chatEp then
                    some (rstripSlash (apiBase ++ pyStr baseUrl ++ pyStr chatEp))
                  else none
                pure (acc2 ++ [⟨model, cn, kv.1, chatUrl, "clusters"⟩]))
              acc
        | none => pure acc)
      []
  else pure []

/-- All records of a `clusters`-shaped body. -/
def normClusters (clusters : Json) : Except String (List ModelRecord) := do
  let ckvs ← pyItems clusters
  ckvs.foldlM
    (fun acc kv => do
      let recs ← clusterModels kv.1 kv.2
      pure (acc ++ recs))
    []

/-- The `endpoints` list shape (lines 194-205). -/
def normEndpointsList (xs : List Json) : List ModelRecord :=
  xs.foldl
    (fun acc item =>
      match item with
      | .obj fs => acc ++ [⟨nameFromGetChain fs.toList "model" "name", "default", "default", none, "endpoints"⟩]
      | _ => acc)
    []

/-- The `data` list shape (lines 206-217). -/
def normDataList (xs : List Json) : List ModelRecord :=
  xs.foldl
    (fun acc item =>
      match item with
      | .obj fs => acc ++ [⟨nameFromGetChain fs.toList "id" "name", "default", "default", none, "data"⟩]
      | _ => acc)
    []

/-- The direct-list shape (lines 218-230): dict items go through
`guessFields`, only truthy names contribute. -/
def normDirectList (xs : List Json) : Except String (List ModelRecord) :=
  xs.foldlM
    (fun acc item =>
      match item with
      | .obj _ => do
          let nameStatus ← guessFields item
          if pyTruthy nameStatus.1 then
            pure (acc ++ [⟨nameStatus.1, "default", "default", none, "direct_list"⟩])
          else pure acc
      | _ => pure acc)
    []

/-- Shape dispatch of one catalog response body (lines 176-230):
`clusters`, else an `endpoints` list, else a `data` list, else a direct
list, else no records. -/
def normalize (data : Json) : Except String (List ModelRecord) := do
  let hasC ← pyContains "clusters" data
  if hasC then do
    let cl ← pyIndex data "clusters"
    normClusters cl
  else do
    let hasE ← pyContains "endpoints" data
    let eList ←
      if hasE then do
        let e ← pyIndex data "endpoints"
        pure (match e with | .arr es => some es.toList | _ => none)
      else pure none
    match eList with
    | some xs => pure (normEndpointsList xs)
    | none => do
      let hasD ← pyContains "data" data
      let dList ←
        if hasD then do
          let d ← pyIndex data "data"
          pure (match d with | .arr es => some es.toList | _ => none)
        else pure none
      match dList with
      | some xs => pure (normDataList xs)
      | none =>
        match data with
        | .arr es => normDirectList es.toList
        | _ => pure []

/-! ## Fetch plumbing (model_status.py lines 115-158, 160-242, 253, 270) -/

/-- The transport failures `safeGet` re-raises: timeout, connection
failure, an HTTP error status (via `raise_for_status`), or a body that is
not valid JSON. -/
inductive TransportError where
  | timeout : TransportError
  | connectionFailure : TransportError
  | httpStatus : Nat → TransportError
  | malformedJson : TransportError
  deriving DecidableEq, Repr

/-- The network behavior of one run: what a single GET of each URL
returns. `safeGet` adds logging but re-raises every failure, so it is the
oracle itself. -/
def Fetch : Type := String → Except TransportError Json

/-- The three catalog candidate endpoints, in the order tried. -/
def catalogCandidateUrls : List String :=
  [apiBase ++ "/resource_server/list-endpoints",
   apiBase ++ "/resource_server/models",
   apiBase ++ "/resource_server/v1/models"]

/-- The jobs endpoint (line 253). -/
def jobsUrl : String := apiBase ++ "/resource_server/sophia/jobs"

/-- The debug catalog fetch at line 270. -/
def endpointsUrl : String := apiBase ++ "/resource_server/list-endpoints"

/-- The records one candidate contributes: any failure inside the `try`
(transport error or a runtime error during normalization) is caught and
yields zero records. -/
def candidateRecords (fetch : Fetch) (url : String) : List ModelRecord :=
  match fetch url with
  | .error _ => []
  | .ok d =>
      match normalize d with
      | .error _ => []
      | .ok ms => ms

/-- `getAvailableModels`: every candidate is attempted exactly once, in
order, regardless of earlier failures; the request log is returned with
the concatenated records. -/
def getAvailableModelsRun (fetch : Fetch) : List String × List ModelRecord :=
  catalogCandidateUrls.foldl
    (fun st url => (st.1 ++ [url], st.2 ++ candidateRecords fetch url))
    ([], [])

/-- The run's fetch phase: best-effort catalog candidates, then the jobs
fetch (fatal on error), then the debug endpoints fetch (also unguarded).
Returns the request log and either the first fatal error or the fetched
data. -/
def fullRun (fetch : Fetch) :
    List String × Except TransportError (List ModelRecord × Json × Json) :=
  let st := getAvailableModelsRun fetch
  match fetch jobsUrl with
  | .error e => (st.1 ++ [jobsUrl], .error e)
  | .ok jobs =>
      match fetch endpointsUrl with
      | .error e => (st.1 ++ [jobsUrl, endpointsUrl], .error e)
      | .ok eps => (st.1 ++ [jobsUrl, endpointsUrl], .ok (st.2, jobs, eps))

/-! ## Concrete inputs used by counterexamples and witnesses -/

/-- A jobs body whose `running` section holds one job serving two models. -/
def twoModelBody : Json :=
  jobj [("running", jarr [jobj [("Models", jarr [.str "a", .str "b"]),
                                ("Job State", .str "running")]])]

/-- A record with an `Estimated Start Time` key but also a direct truthy
`status` key. -/
def estWithDirectStatus : Json :=
  jobj [("Models", .str "m"), ("status", .str "running"),
        ("Estimated Start Time", .str "2025-01-01 10:00")]

/-- The comma-splitting record of the spec's test matrix. -/
def commaRecord : Json :=
  jobj [("Models", .str "a, b ,c"), ("Job State", .str "running")]

/-- A jobs body with the comma-splitting record in `running`. -/
def commaBody : Json := jobj [("running", jarr [commaRecord])]

/-- A jobs body reporting the same model both running and queued. -/
def doubleCountBody : Json :=
  jobj [("running", jarr [jobj [("Models", .str "m"), ("Job State", .str "running")]]),
        ("queued", jarr [jobj [("Models", .str "m"), ("Job State", .str "queued")]])]

/-- Field list of a jobs body with an empty `running` section and a
non-empty `items` list. -/
def emptySectionItemsFields : List (String × Json) :=
  [("running", jarr []),
   ("items", jarr [jobj [("Models", .str "m"), ("Job State", .str "running")]])]

/-- The jobs body over those fields. -/
def emptySectionItemsBody : Json := jobj emptySectionItemsFields

/-- A record whose status value is a truthy non-string. -/
def numericStatusRecord : Json := jobj [("status", .num 5)]

/-- A jobs-body field list with a populated `private-batch-queued`
section. -/
def pbqFieldsA : List (String × Json) :=
  [("running", jarr [commaRecord]),
   ("private-batch-queued", jarr [jobj [("Models", .str "zz"), ("Job State", .str "queued")]])]

/-- The same field list with the `private-batch-queued` section removed. -/
def pbqFieldsB : List (String × Json) :=
  [("running", jarr [commaRecord])]

/-- A network in which every request fails with a timeout. -/
def fetchAllFail : Fetch := fun _ => .error .timeout

/-- Two catalog records sharing a name but differing in cluster and
framework. -/
def recFirst : ModelRecord := ⟨.str "m", "sophia", "vllm", none, "clusters"⟩

def recSecond : ModelRecord := ⟨.str "m", "polaris", "sglang", none, "clusters"⟩

/-! ## Bridge and helper lemmas -/

theorem elems_toList_ofList (l : List Json) : (JsonElems.ofList l).toList = l := by
  induction l with
  | nil => rfl
  | cons x tl ih => simp [JsonElems.ofList, JsonElems.toList, ih]

theorem fields_toList_ofList (l : List (String × Json)) :
    (JsonFields.ofList l).toList = l := by
  induction l with
  | nil => rfl
  | cons kv tl ih => cases kv; simp [JsonFields.ofList, JsonFields.toList, ih]

theorem guessFields_jobj_ok (kvs : List (String × Json)) (s : String)
    (h : finishStatus (rawStatus kvs) = .ok s) :
    guessFields (jobj kvs) = .ok (guessedName kvs, s) := by
  show guessFields (.obj (JsonFields.ofList kvs)) = _
  simp [guessFields, fields_toList_ofList, h]

theorem jobItemsOf_jobj (kvs : List (String × Json)) :
    jobItemsOf (jobj kvs) =
      (if (sectionItems kvs).isEmpty && hasKey kvs "items" then iterValue (dget kvs "items")
       else .ok (sectionItems kvs)) := by
  show jobItemsOf (.obj (JsonFields.ofList kvs)) = _
  simp [jobItemsOf, fields_toList_ofList]

theorem exceptOk_bind {α β : Type} (x : α) (f : α → Except String β) :
    (Except.ok x : Except String α) >>= f = f x := rfl

theorem exceptOk_map {α β : Type} (x : α) (f : α → β) :
    f <$> (Except.ok x : Except String α) = .ok (f x) := rfl

theorem exceptPure {α : Type} (x : α) : (pure x : Except String α) = .ok x := rfl

theorem classifyStep_single (b : Buckets) (it : Json) (n s : String)
    (hgf : guessFields it = .ok (.str n, s))
    (hst : pyLowerStr s ∈ classifiedStatuses)
    (hne : n ≠ "") (huj : n ≠ "Unknown Job")
    (hnc : strHasSub n "," = false) :
    classifyStep b it = .ok (bucketAdd b s [.str n]) := by
  simp [classifyStep, hgf, exceptOk_bind, exceptOk_map, exceptPure, hst, pyTruthy,
    pyContains, hnc, hne, huj, bne_iff_ne]

theorem classifyStep_comma (b : Buckets) (it : Json) (n s : String)
    (hgf : guessFields it = .ok (.str n, s))
    (hst : pyLowerStr s ∈ classifiedStatuses)
    (hne : n ≠ "") (huj : n ≠ "Unknown Job")
    (hc : strHasSub n "," = true) :
    classifyStep b it = .ok (bucketAdd b s (((pySplitComma n).map pyTrim).map Json.str)) := by
  simp [classifyStep, hgf, exceptOk_bind, exceptOk_map, exceptPure, hst, pyTruthy,
    pyContains, hc, hne, huj, bne_iff_ne, splitTrimName]

/-! ## C2 — status precedence in the final listing -/

/-- C2: for every catalog name, the final listing resolves the displayed
status by testing bucket membership in the fixed order active, then
starting, then queued, defaulting to Stopped; in particular a name in both
the active and the queued bucket is displayed Active, never Queued. -/
theorem resolveStatus_precedence (act sta que : List Json) (n : Json) :
    (n ∈ act → resolveStatus act sta que n = .active)
  ∧ (n ∉ act → n ∈ sta → resolveStatus act sta que n = .starting)
  ∧ (n ∉ act → n ∉ sta → n ∈ que → resolveStatus act sta que n = .queued)
  ∧ (n ∉ act → n ∉ sta → n ∉ que → resolveStatus act sta que n = .stopped)
  ∧ (n ∈ act → n ∈ que → resolveStatus act sta que n = .active) := by
  unfold resolveStatus
  refine ⟨?_, ?_, ?_, ?_, ?_⟩ <;> intros <;> simp [*]

/-- Witness for C2: the name reported both running and queued resolves to
Active. -/
theorem resolveStatus_precedence_check :
    resolveStatus [Json.str "m"] [] [Json.str "m"] (Json.str "m") = .active :=
  (resolveStatus_precedence [Json.str "m"] [] [Json.str "m"] (Json.str "m")).2.2.2.2
    (by decide) (by decide)

/-! ## C3 — the Estimated Start Time override -/

/-- C3 counterexample: a record holding `Estimated Start Time` together
with a truthy direct `status` key is NOT forced to Starting — `guessFields`
returns the direct status and the classification loop files the name under
the active bucket. -/
theorem estimatedStart_skipped_on_direct_status :
    guessFields estWithDirectStatus = .ok (.str "m", "running")
  ∧ classifyStep ⟨[], [], []⟩ estWithDirectStatus = .ok ⟨[.str "m"], [], []⟩ :=
  ⟨rfl, rfl⟩

/-- C3 (amended): for a record with no truthy direct name candidate, a
`Models` key, and no truthy direct status candidate, the presence of an
`Estimated Start Time` key forces the returned status to `"Starting"`
regardless of the `Model Status` / `Job State` values, and the
classification loop files the resolved name under the starting bucket. -/
theorem estimatedStart_forces_starting (kvs : List (String × Json))
    (hn : pyTruthy (directName kvs) = false)
    (hm : hasKey kvs "Models" = true)
    (hs : pyTruthy (directStatus kvs) = false)
    (he : hasKey kvs "Estimated Start Time" = true) :
    guessFields (jobj kvs) = .ok (guessedName kvs, "Starting")
  ∧ ∀ (b : Buckets) (n : String), guessedName kvs = .str n → n ≠ "" → n ≠ "Unknown Job" →
      strHasSub n "," = false →
      classifyStep b (jobj kvs) = .ok { b with starting := b.starting ++ [.str n] } := by
  have hraw : rawStatus kvs = .str "Starting" := by
    simp [rawStatus, modelsFallback, hn, hm, hs, he]
  have hfin : finishStatus (rawStatus kvs) = .ok "Starting" := by rw [hraw]; rfl
  have hgf := guessFields_jobj_ok kvs "Starting" hfin
  refine ⟨hgf, ?_⟩
  intro b n hname hne huj hnc
  have hstep := classifyStep_single b (jobj kvs) n "Starting"
    (by rw [hgf, hname]) (by decide) hne huj hnc
  rw [hstep]
  rfl

/-- Witness for C3 (amended): the job-shaped record with
`Job State: running` and an `Estimated Start Time` lands in the starting
bucket, not the active one. -/
theorem estimatedStart_forces_starting_check :
    classifyStep ⟨[], [], []⟩
        (jobj [("Models", .str "m"), ("Job State", .str "running"),
               ("Estimated Start Time", .str "2025-01-01 10:00")]) =
      .ok ⟨[], [.str "m"], []⟩ := by
  have h := (estimatedStart_forces_starting
    [("Models", .str "m"), ("Job State", .str "running"),
     ("Estimated Start Time", .str "2025-01-01 10:00")] rfl rfl rfl rfl).2
    ⟨[], [], []⟩ "m" rfl (by decide) (by decide) rfl
  exact h

/-! ## C10 — totality of guessFields -/

/-- C10 counterexample: a mapping whose status value is a truthy
non-string makes `guessFields` raise (Python `AttributeError` on
`.strip()`), so `guessFields` is not total on arbitrary JSON mappings. -/
theorem guessFields_raises_on_numeric_status :
    guessFields numericStatusRecord = .error "AttributeError: no attribute strip" := rfl

/-- C10 (amended): on every mapping whose resolved raw status is a string
or a falsy value, `guessFields` returns without error: the status comes
back trimmed, a null/absent status becomes the empty string, and an
unresolvable name is returned as null rather than failing. -/
theorem guessFields_ok_on_string_status (kvs : List (String × Json)) :
    (∀ s : String, rawStatus kvs = .str s →
      guessFields (jobj kvs) = .ok (guessedName kvs, pyTrim s))
  ∧ (pyTruthy (rawStatus kvs) = false →
      guessFields (jobj kvs) = .ok (guessedName kvs, "")) := by
  constructor
  · intro s hraw
    by_cases hs : s = ""
    · subst hs
      exact guessFields_jobj_ok kvs "" (by rw [hraw]; rfl)
    · refine guessFields_jobj_ok kvs (pyTrim s) ?_
      rw [hraw]
      simp [finishStatus, pyTruthy, hs]
  · intro hfal
    exact guessFields_jobj_ok kvs "" (by simp [finishStatus, hfal])

/-- Witness for C10 (amended): a record with only a whitespace-padded
`state` key yields a null name and the trimmed status, with no error. -/
theorem guessFields_ok_on_string_status_check :
    guessFields (jobj [("state", .str "  Running ")]) = .ok (.null, "Running") := by
  have h := (guessFields_ok_on_string_status [("state", .str "  Running ")]).1
    "  Running " rfl
  exact h

/-! ## C9 — when the items fallback is taken -/

/-- C9 counterexample: a body whose `running` section is present (but
empty) still falls back to `items` — the `items` records are classified,
contradicting the claim that `items` is unused whenever a processed
section exists. -/
theorem items_used_despite_present_section :
    hasKey emptySectionItemsFields "running" = true
  ∧ jobItemsOf (jobj emptySectionItemsFields) =
      .ok [jobj [("Models", .str "m"), ("Job State", .str "running")]]
  ∧ classifyJobs (jobj emptySectionItemsFields) = .ok ⟨[.str "m"], [], []⟩ :=
  ⟨rfl, rfl, rfl⟩

/-- C9 (amended): the `items` list is used as the sole source of job
records exactly when the four processed sections together contribute zero
records (each absent, not a list, or empty) and an `items` key exists; a
body whose sections contribute at least one record never uses `items`. -/
theorem items_fallback_condition (kvs : List (String × Json)) :
    (sectionItems kvs ≠ [] → jobItemsOf (jobj kvs) = .ok (sectionItems kvs))
  ∧ (sectionItems kvs = [] → hasKey kvs "items" = false → jobItemsOf (jobj kvs) = .ok [])
  ∧ (∀ xs : List Json, sectionItems kvs = [] → kvs.lookup "items" = some (jarr xs) →
      jobItemsOf (jobj kvs) = .ok xs) := by
  refine ⟨?_, ?_, ?_⟩
  · intro h
    rw [jobItemsOf_jobj]
    simp [List.isEmpty_iff, h]
  · intro h hk
    rw [jobItemsOf_jobj]
    simp [h, hk]
  · intro xs h hl
    rw [jobItemsOf_jobj]
    have hk : hasKey kvs "items" = true := by simp [hasKey, hl]
    simp [h, hk, dget, hl, iterValue, jarr, elems_toList_ofList]

/-- Witness for C9 (amended): the empty-`running` body's `items` list is
taken as the job source. -/
theorem items_fallback_condition_check :
    jobItemsOf (jobj emptySectionItemsFields) =
      .ok [jobj [("Models", .str "m"), ("Job State", .str "running")]] :=
  (items_fallback_condition emptySectionItemsFields).2.2
    [jobj [("Models", .str "m"), ("Job State", .str "running")]] rfl rfl

/-! ## C1 — multi-model job entries -/

/-- C1 counterexample: a running job serving the two models `a` and `b` is
NOT exploded into one classification target per model — the active bucket
receives only the summarized name `"a (+1 others)"`, and neither `a` nor
`b` appears in any bucket. -/
theorem multiModelJob_not_exploded :
    classifyJobs twoModelBody = .ok ⟨[.str "a (+1 others)"], [], []⟩
  ∧ Json.str "a" ∉ ([Json.str "a (+1 others)"] : List Json)
  ∧ Json.str "b" ∉ ([Json.str "a (+1 others)"] : List Json) :=
  ⟨rfl, by decide, by decide⟩

/-- C1 (amended): for a job record with no truthy direct name key whose
`Models` value is a list of two or more entries, the resolved name is the
single summarized string `"<first> (+<n-1> others)"`, and (when its status
classifies and the summary is a usable, comma-free name) the
classification loop adds exactly that summarized name — not the individual
model names — to the bucket selected by the status. -/
theorem multiModelJob_summary_name (kvs : List (String × Json)) (m0 m1 : Json)
    (ms : List Json)
    (hn : pyTruthy (directName kvs) = false)
    (hm : kvs.lookup "Models" = some (jarr (m0 :: m1 :: ms))) :
    guessedName kvs = .str (pyStr m0 ++ " (+" ++ toString (ms.length + 1) ++ " others)")
  ∧ ∀ (b : Buckets) (s : String), finishStatus (rawStatus kvs) = .ok s →
      pyLowerStr s ∈ classifiedStatuses →
      pyStr m0 ++ " (+" ++ toString (ms.length + 1) ++ " others)" ≠ "" →
      pyStr m0 ++ " (+" ++ toString (ms.length + 1) ++ " others)" ≠ "Unknown Job" →
      strHasSub (pyStr m0 ++ " (+" ++ toString (ms.length + 1) ++ " others)") "," = false →
      classifyStep b (jobj kvs) =
        .ok (bucketAdd b s
          [.str (pyStr m0 ++ " (+" ++ toString (ms.length + 1) ++ " others)")]) := by
  have hmf : modelsFallback kvs = true := by simp [modelsFallback, hn, hasKey, hm]
  have hname : guessedName kvs =
      .str (pyStr m0 ++ " (+" ++ toString (ms.length + 1) ++ " others)") := by
    simp [guessedName, hmf, nameFromModels, dget, hm, jarr, elems_toList_ofList]
  refine ⟨hname, ?_⟩
  intro b s hfin hst hne huj hnc
  exact classifyStep_single b (jobj kvs) _ s
    (by rw [guessFields_jobj_ok kvs s hfin, hname]) hst hne huj hnc

/-- Witness for C1 (amended): the two-model running job contributes
exactly the summarized name to the active bucket. -/
theorem multiModelJob_summary_name_check :
    classifyStep ⟨[], [], []⟩
        (jobj [("Models", jarr [.str "a", .str "b"]), ("Job State", .str "running")]) =
      .ok ⟨[.str "a (+1 others)"], [], []⟩ := by
  have h := (multiModelJob_summary_name
      [("Models", jarr [.str "a", .str "b"]), ("Job State", .str "running")]
      (.str "a") (.str "b") [] rfl rfl).2 ⟨[], [], []⟩ "running" rfl (by decide)
    (by decide) (by decide) rfl
  exact h

/-! ## C4 — comma-separated names -/

/-- C4: a resolved name containing a comma is split on commas, each piece
is trimmed, and every resulting name is added individually to the single
bucket selected by that job's status; in particular the record
`(Models: "a, b ,c", Job State: running)` yields exactly the three active
names `a`, `b`, `c`. -/
theorem commaSplit_classification :
    (∀ (b : Buckets) (it : Json) (n s : String),
       guessFields it = .ok (.str n, s) →
       pyLowerStr s ∈ classifiedStatuses →
       strHasSub n "," = true → n ≠ "" → n ≠ "Unknown Job" →
       classifyStep b it = .ok (bucketAdd b s (((pySplitComma n).map pyTrim).map Json.str)))
  ∧ classifyJobs commaBody = .ok ⟨[.str "a", .str "b", .str "c"], [], []⟩ :=
  ⟨fun b it n s hgf hst hc hne huj => classifyStep_comma b it n s hgf hst hne huj hc, rfl⟩

/-- Witness for C4: the comma record lands as three trimmed active names. -/
theorem commaSplit_classification_check :
    classifyStep ⟨[], [], []⟩ commaRecord = .ok ⟨[.str "a", .str "b", .str "c"], [], []⟩ := by
  have h := commaSplit_classification.1 ⟨[], [], []⟩ commaRecord "a, b ,c" "running"
    rfl (by decide) rfl (by decide) (by decide)
  exact h

/-! ## C7 — the excluded private-batch-queued section -/

theorem exceptError_bind {α β : Type} (e : String) (f : α → Except String β) :
    (Except.error e : Except String α) >>= f = .error e := rfl

/-- C7: the classification buckets are identical for any two jobs bodies
that agree on every key other than `private-batch-queued` — that section's
contents (changed or removed) never influence any bucket. -/
theorem privateBatchQueued_noninterference (kvs1 kvs2 : List (String × Json))
    (h : ∀ k : String, k ≠ "private-batch-queued" → kvs1.lookup k = kvs2.lookup k) :
    classifyJobs (jobj kvs1) = classifyJobs (jobj kvs2) := by
  have hsec : sectionItems kvs1 = sectionItems kvs2 := by
    simp only [sectionItems, sectionKeys, List.map]
    rw [h "running" (by decide), h "queued" (by decide), h "others" (by decide),
      h "private-batch-running" (by decide)]
  have hitems : kvs1.lookup "items" = kvs2.lookup "items" := h "items" (by decide)
  have hji : jobItemsOf (jobj kvs1) = jobItemsOf (jobj kvs2) := by
    rw [jobItemsOf_jobj, jobItemsOf_jobj, hsec,
      show hasKey kvs1 "items" = hasKey kvs2 "items" by simp [hasKey, hitems],
      show dget kvs1 "items" = dget kvs2 "items" by simp [dget, hitems]]
  simp [classifyJobs, hji]

/-- Witness for C7: populating `private-batch-queued` leaves the buckets
of the otherwise-identical body unchanged. -/
theorem privateBatchQueued_noninterference_check :
    classifyJobs (jobj pbqFieldsA) = classifyJobs (jobj pbqFieldsB) := by
  apply privateBatchQueued_noninterference
  intro k hk
  by_cases h1 : k = "running"
  · subst h1; rfl
  · have e1 : (k == "running") = false := by simpa using h1
    have e2 : (k == "private-batch-queued") = false := by simpa using hk
    simp [pbqFieldsA, pbqFieldsB, List.lookup, e1, e2]

/-! ## C5 — the total-active count -/

/-- C5: the reported "total active" count is the sum of the sizes of the
three independently deduplicated buckets, so a name held by two buckets is
counted once per bucket; on the double-report body the count is 2 while
the true union has one element. -/
theorem totalActive_sums_bucket_sizes :
    (∀ (jobs : Json) (b : Buckets) (n : Nat),
       classifyJobs jobs = .ok b → totalActiveOf jobs = .ok n →
       n = b.active.toFinset.card + b.starting.toFinset.card + b.queued.toFinset.card)
  ∧ totalActiveOf doubleCountBody = .ok 2
  ∧ classifyJobs doubleCountBody = .ok ⟨[.str "m"], [], [.str "m"]⟩
  ∧ ([Json.str "m"] ++ ([] : List Json) ++ [Json.str "m"]).toFinset.card = 1 := by
  refine ⟨?_, rfl, rfl, by decide⟩
  intro jobs b n h1 h2
  have hb : totalActiveOf jobs =
      (do
        let a ← pySet b.active
        let s ← pySet b.starting
        let q ← pySet b.queued
        pure (a.length + s.length + q.length)) := by
    unfold totalActiveOf
    rw [h1, exceptOk_bind]
  rw [hb] at h2
  unfold pySet at h2
  split at h2
  · rw [exceptOk_bind] at h2
    split at h2
    · rw [exceptOk_bind] at h2
      split at h2
      · rw [exceptOk_bind, exceptPure] at h2
        have h3 := Except.ok.inj h2
        rw [List.card_toFinset, List.card_toFinset, List.card_toFinset]
        exact h3.symm
      · rw [exceptError_bind] at h2
        exact Except.noConfusion h2
    · rw [exceptError_bind] at h2
      exact Except.noConfusion h2
  · rw [exceptError_bind] at h2
    exact Except.noConfusion h2

/-- Witness for C5: on the double-report body the count 2 equals the sum
of the three bucket sizes (1 + 0 + 1), over-counting the one-element
union. -/
theorem totalActive_sums_bucket_sizes_check :
    (2 : Nat) = ([Json.str "m"] : List Json).toFinset.card
      + ([] : List Json).toFinset.card + ([Json.str "m"] : List Json).toFinset.card :=
  totalActive_sums_bucket_sizes.1 doubleCountBody ⟨[.str "m"], [], [.str "m"]⟩ 2 rfl rfl

/-! ## C8 — transport-error handling around the fetches -/

theorem availFold (fetch : Fetch) (urls : List String) :
    ∀ st : List String × List ModelRecord,
      urls.foldl (fun st url => (st.1 ++ [url], st.2 ++ candidateRecords fetch url)) st =
        (st.1 ++ urls, st.2 ++ (urls.map (candidateRecords fetch)).flatten) := by
  induction urls with
  | nil => intro st; simp
  | cons u tl ih =>
      intro st
      rw [List.foldl_cons, ih]
      simp

theorem getAvailRun_eq (fetch : Fetch) :
    getAvailableModelsRun fetch =
      (catalogCandidateUrls, (catalogCandidateUrls.map (candidateRecords fetch)).flatten) := by
  unfold getAvailableModelsRun
  rw [availFold]
  simp

/-- C8: a transport error on the jobs fetch is fatal (it becomes the
run's result and the run stops); the same error on any one of the three
catalog candidates contributes zero records without disturbing the other
candidates; and the catalog phase issues exactly one request per
candidate, in order, no matter which requests fail (no retry). -/
theorem fetch_error_handling :
    (∀ fetch : Fetch, (getAvailableModelsRun fetch).1 = catalogCandidateUrls)
  ∧ (∀ (fetch : Fetch) (e : TransportError), fetch jobsUrl = .error e →
       (fullRun fetch).2 = .error e ∧ (fullRun fetch).1 = catalogCandidateUrls ++ [jobsUrl])
  ∧ (∀ (fetch : Fetch) (u : String) (e : TransportError), u ∈ catalogCandidateUrls →
       fetch u = .error e →
       (getAvailableModelsRun fetch).2 =
         (getAvailableModelsRun (fun v => if v = u then .ok (jobj []) else fetch v)).2) := by
  refine ⟨?_, ?_, ?_⟩
  · intro fetch
    rw [getAvailRun_eq]
  · intro fetch e he
    unfold fullRun
    rw [he, getAvailRun_eq]
    exact ⟨rfl, rfl⟩
  · intro fetch u e hu he
    rw [getAvailRun_eq, getAvailRun_eq]
    simp only
    congr 1
    apply List.map_congr_left
    intro url hurl
    by_cases h : url = u
    · subst h
      have hok : normalize (jobj []) = .ok [] := rfl
      rw [show candidateRecords fetch url = [] from by simp [candidateRecords, he],
        show candidateRecords (fun v => if v = url then .ok (jobj []) else fetch v) url = []
          from by simp [candidateRecords, hok]]
    · simp [candidateRecords, h]

/-- Witness for C8: with every request timing out, the run fails with the
jobs fetch's timeout while all three catalog candidates were still
attempted. -/
theorem fetch_error_handling_check :
    (fullRun fetchAllFail).2 = .error .timeout
  ∧ (getAvailableModelsRun fetchAllFail).1 = catalogCandidateUrls :=
  ⟨(fetch_error_handling.2.1 fetchAllFail .timeout rfl).1,
   fetch_error_handling.1 fetchAllFail⟩

/-! ## C6 — first-seen-wins dedup of the catalog -/

theorem uniqueFoldE_ok (ms : List ModelRecord) :
    ∀ acc us : List ModelRecord,
      ms.foldlM uniqueStepE acc = .ok us → us = ms.foldl dupStep acc := by
  induction ms with
  | nil =>
      intro acc us h
      rw [List.foldlM_nil] at h
      rw [List.foldl_nil]
      exact (Except.ok.inj h).symm
  | cons m tl ih =>
      intro acc us h
      rw [List.foldlM_cons] at h
      unfold uniqueStepE at h
      split at h
      · rw [exceptOk_bind] at h
        rw [List.foldl_cons]
        exact ih (dupStep acc m) us h
      · rw [exceptError_bind] at h
        exact Except.noConfusion h

theorem dupFold_find (n : Json) (ms : List ModelRecord) :
    ∀ acc : List ModelRecord,
      ((∃ r ∈ acc, r.name = n) →
        (ms.foldl dupStep acc).find? (fun r => decide (r.name = n)) =
          acc.find? (fun r => decide (r.name = n)))
    ∧ ((∀ r ∈ acc, r.name ≠ n) →
        (ms.foldl dupStep acc).find? (fun r => decide (r.name = n)) =
          ms.find? (fun r => decide (r.name = n))) := by
  induction ms with
  | nil =>
      intro acc
      refine ⟨fun _ => rfl, fun h => ?_⟩
      rw [List.foldl_nil, List.find?_nil]
      exact List.find?_eq_none.mpr (fun r hr => by simpa using h r hr)
  | cons m tl ih =>
      intro acc
      constructor
      · rintro ⟨r, hr, hrn⟩
        rw [List.foldl_cons]
        by_cases ht : acc.any (fun r => decide (r.name = m.name)) = true
        · have hd : dupStep acc m = acc := by simp [dupStep, ht]
          rw [hd]
          exact (ih acc).1 ⟨r, hr, hrn⟩
        · rw [Bool.not_eq_true] at ht
          have hd : dupStep acc m = acc ++ [m] := by simp [dupStep, ht]
          rw [hd]
          have hfind : (acc ++ [m]).find? (fun r => decide (r.name = n)) =
              acc.find? (fun r => decide (r.name = n)) := by
            have hs : (acc.find? (fun r => decide (r.name = n))).isSome :=
              List.find?_isSome.mpr ⟨r, hr, by simp [hrn]⟩
            cases hopt : acc.find? (fun r => decide (r.name = n)) with
            | none => rw [hopt] at hs; simp at hs
            | some v => rw [List.find?_append, hopt]; rfl
          rw [(ih (acc ++ [m])).1 ⟨r, List.mem_append_left _ hr, hrn⟩, hfind]
      · intro hnone
        rw [List.foldl_cons]
        by_cases hmn : m.name = n
        · have ht : acc.any (fun r => decide (r.name = m.name)) = false := by
            by_contra hcon
            rw [Bool.not_eq_false] at hcon
            obtain ⟨x, hx, hxn⟩ := List.any_eq_true.mp hcon
            exact hnone x hx (by simp at hxn; rw [hxn, hmn])
          have hd : dupStep acc m = acc ++ [m] := by simp [dupStep, ht]
          rw [hd]
          have hhas : ∃ r ∈ acc ++ [m], r.name = n :=
            ⟨m, List.mem_append_right _ (by simp), hmn⟩
          rw [(ih (acc ++ [m])).1 hhas, List.find?_append]
          have hacc : acc.find? (fun r => decide (r.name = n)) = none :=
            List.find?_eq_none.mpr (fun x hx => by simpa using hnone x hx)
          rw [hacc]
          simp [List.find?, hmn]
        · have hstep : ∀ r ∈ dupStep acc m, r.name ≠ n := by
            intro r hr
            unfold dupStep at hr
            split at hr
            · exact hnone r hr
            · rcases List.mem_append.mp hr with h2 | h2
              · exact hnone r h2
              · have : r = m := by simpa using h2
                subst this
                exact hmn
          rw [(ih (dupStep acc m)).2 hstep]
          simp [List.find?, hmn]

theorem dupFold_nodup (ms : List ModelRecord) :
    ∀ acc : List ModelRecord, (acc.map (fun r => r.name)).Nodup →
      ((ms.foldl dupStep acc).map (fun r => r.name)).Nodup := by
  induction ms with
  | nil => intro acc h; simpa using h
  | cons m tl ih =>
      intro acc h
      rw [List.foldl_cons]
      apply ih
      unfold dupStep
      split
      · exact h
      · rename_i ht
        rw [List.map_append]
        refine List.nodup_append.mpr ⟨h, List.nodup_singleton _, ?_⟩
        intro a ha hb
        simp at hb
        subst hb
        obtain ⟨x, hx, hxn⟩ := List.mem_map.mp ha
        exact ht (List.any_eq_true.mpr ⟨x, hx, by simp [hxn]⟩)

theorem dupFold_mem (ms : List ModelRecord) :
    ∀ (acc : List ModelRecord) (m : ModelRecord),
      m ∈ ms.foldl dupStep acc → m ∈ acc ∨ m ∈ ms := by
  induction ms with
  | nil => intro acc m h; exact Or.inl (by simpa using h)
  | cons x tl ih =>
      intro acc m h
      rw [List.foldl_cons] at h
      rcases ih (dupStep acc x) m h with h1 | h1
      · unfold dupStep at h1
        split at h1
        · exact Or.inl h1
        · rcases List.mem_append.mp h1 with h2 | h2
          · exact Or.inl h2
          · have : m = x := by simpa using h2
            subst this
            exact Or.inr (List.mem_cons_self _ _)
      · exact Or.inr (List.mem_cons_of_mem _ h1)

/-- C6: deduplication of the catalog is first-seen-wins — for every name
the surviving record is exactly the first record of the input carrying
that name (including its cluster, framework and chat URL), each name
appears at most once afterwards, and every surviving record comes from the
input (later duplicates discarded entirely). -/
theorem uniqueModels_first_seen_wins (ms us : List ModelRecord)
    (h : uniqueModelsE ms = .ok us) :
    (∀ n : Json, us.find? (fun r => decide (r.name = n)) =
        ms.find? (fun r => decide (r.name = n)))
  ∧ (us.map (fun r => r.name)).Nodup
  ∧ (∀ m : ModelRecord, m ∈ us → m ∈ ms) := by
  have hus : us = ms.foldl dupStep [] :=
    uniqueFoldE_ok ms [] us (by simpa [uniqueModelsE] using h)
  subst hus
  refine ⟨?_, ?_, ?_⟩
  · intro n
    exact (dupFold_find n ms []).2 (by simp)
  · exact dupFold_nodup ms [] (by simp)
  · intro m hm
    rcases dupFold_mem ms [] m hm with h1 | h1
    · simp at h1
    · exact h1

/-- Witness for C6: of two records sharing the name `m`, the record of the
first (with its cluster and framework) is the one the dedup keeps. -/
theorem uniqueModels_first_seen_wins_check :
    [recFirst].find? (fun r => decide (r.name = Json.str "m")) =
      [recFirst, recSecond].find? (fun r => decide (r.name = Json.str "m")) :=
  (uniqueModels_first_seen_wins [recFirst, recSecond] [recFirst] rfl).1 (Json.str "m")

end ModelStatus
